import Mathlib

/-!
Verification of the HEOS client library specification against a shallow
embedding of the library's Rust source.

The embedding covers:
* the bounded numeric types `Volume` and `VolumeStep`
  (src/heos/src/data/mod.rs, `bounded_number_type`; src/heos/src/data/common.rs);
* the mock backend's queue handling, group handling, volume handlers and
  quickselect handler (src/heos/src/mock.rs);
* the channel response demultiplexer (src/heos/src/channel.rs), modelled as a
  transition system over wire events;
* the now-playing progress interpolation (src/heos/src/state/player.rs).

Machine integers are modelled as `Nat` (for `u16`/`u64` values, with explicit
bounds where overflow could matter) and `Int` (for `i64` ids). Rust times
(`Instant`, `Duration`) are modelled as `Nat` milliseconds. Fallible Rust code
returns `Option`/`Except`.
-/

namespace Heos

/-- Error produced when constructing a bounded numeric type out of bounds;
mirrors `NumberOutOfBoundsError` in src/heos/src/data/mod.rs, which carries
the offending value and the inclusive bounds. -/
structure NumberOutOfBoundsError where
  value : Nat
  min : Nat
  max : Nat
deriving Repr, DecidableEq

/-- The `u16::MAX` saturation bound used by `u16::saturating_add`. -/
def u16Max : Nat := 65535

/-- `u16::saturating_add`: addition capped at `u16::MAX`. -/
def u16SaturatingAdd (a b : Nat) : Nat := min (a + b) u16Max

/-- Volume level, `bounded_number_type! { pub struct Volume(u16, 0..=100) }`
from src/heos/src/data/common.rs. The bound invariant is not baked into the
type; it is established by the checked constructor, as in the source. -/
structure Volume where
  val : Nat
deriving Repr, DecidableEq

/-- `Volume::MIN`. -/
def Volume.minVal : Nat := 0
/-- `Volume::MAX`. -/
def Volume.maxVal : Nat := 100

/-- `Volume::new`: checks `value <= MAX && value >= MIN` and otherwise fails
with `NumberOutOfBoundsError { value, min, max }`. -/
def Volume.new (n : Nat) : Except NumberOutOfBoundsError Volume :=
  if n ≤ Volume.maxVal ∧ Volume.minVal ≤ n then .ok ⟨n⟩
  else .error ⟨n, Volume.minVal, Volume.maxVal⟩

/-- `Volume::saturating_add`: `self.0.saturating_add(rhs).min(Self::MAX)`. -/
def Volume.saturatingAdd (v : Volume) (rhs : Nat) : Volume :=
  ⟨min (u16SaturatingAdd v.val rhs) Volume.maxVal⟩

/-- `Volume::saturating_sub`: `self.0.saturating_sub(rhs).max(Self::MIN)`;
`u16::saturating_sub` is truncated subtraction, which `Nat.sub` already is. -/
def Volume.saturatingSub (v : Volume) (rhs : Nat) : Volume :=
  ⟨max (v.val - rhs) Volume.minVal⟩

/-- Volume step, `bounded_number_type! { pub struct VolumeStep(u16, 0..=10) }`
from src/heos/src/data/common.rs. -/
structure VolumeStep where
  val : Nat
deriving Repr, DecidableEq

/-- `VolumeStep::MIN`. -/
def VolumeStep.minVal : Nat := 0
/-- `VolumeStep::MAX`. -/
def VolumeStep.maxVal : Nat := 10

/-- `VolumeStep::new`. -/
def VolumeStep.new (n : Nat) : Except NumberOutOfBoundsError VolumeStep :=
  if n ≤ VolumeStep.maxVal ∧ VolumeStep.minVal ≤ n then .ok ⟨n⟩
  else .error ⟨n, VolumeStep.minVal, VolumeStep.maxVal⟩

/-- `VolumeStep::saturating_add`. -/
def VolumeStep.saturatingAdd (v : VolumeStep) (rhs : Nat) : VolumeStep :=
  ⟨min (u16SaturatingAdd v.val rhs) VolumeStep.maxVal⟩

/-- `VolumeStep::saturating_sub`. -/
def VolumeStep.saturatingSub (v : VolumeStep) (rhs : Nat) : VolumeStep :=
  ⟨max (v.val - rhs) VolumeStep.minVal⟩

/-- `impl Default for VolumeStep`: defaults to 5. -/
def VolumeStep.defaultStep : VolumeStep := ⟨5⟩

/-- `QueuedTrackInfo` from src/heos/src/data/queue.rs. `QueueId` is a `u64`
newtype, modelled as `Nat`. -/
structure QueuedTrackInfo where
  song : String
  album : String
  artist : String
  imageUrl : Option String
  mediaId : String
  queueId : Nat
  albumId : Option String
deriving Repr, DecidableEq

/-- `PlayState` from src/heos/src/data/player.rs. -/
inductive PlayState
  | play
  | pause
  | stop
deriving Repr, DecidableEq

/-- `MuteState` from src/heos/src/data/common.rs. -/
inductive MuteState
  | on
  | off
deriving Repr, DecidableEq

/-- `RepeatMode` from src/heos/src/data/player.rs. -/
inductive RepeatMode
  | all
  | one
  | off
deriving Repr, DecidableEq

/-- `ShuffleMode` from src/heos/src/data/player.rs. -/
inductive ShuffleMode
  | on
  | off
deriving Repr, DecidableEq

/-- `QuickSelect` from src/heos/src/data/quickselect.rs: a slot id (an `i64`
bounded to `1..=6` at parse time) and a user-defined name. -/
structure QuickSelect where
  id : Int
  name : String
deriving Repr, DecidableEq

/-- `AddToQueueType` from src/heos/src/data/player.rs (wire integers 1..=4). -/
inductive AddToQueueType
  | playNow
  | playNext
  | addToEnd
  | replaceAndPlay
deriving Repr, DecidableEq

/-- The queue-relevant part of `MockPlayer` from src/heos/src/mock.rs: the
player's `PlayerSnapshot` fields that the mock command handlers read or write,
plus the quickselect slots. `nowPlayingQueueId` models
`snapshot.now_playing.info`'s `queue_id` field (the only part of the
now-playing record the queue handlers touch). -/
structure MockPlayer where
  playerId : Int
  name : String
  nowPlayingQueueId : Nat
  queue : List QueuedTrackInfo
  playState : PlayState
  volume : Volume
  mute : MuteState
  repeatMode : RepeatMode
  shuffle : ShuffleMode
  quickselects : List QuickSelect
deriving Repr, DecidableEq

/-- The renumbering loop of `MockPlayer::adjust_queue_ids`:
`for (idx, info) in queue.iter_mut().enumerate() { info.queue_id = idx }`,
so ids are assigned from `n` upward (the source starts at 0). -/
def renumberFrom (n : Nat) : List QueuedTrackInfo → List QueuedTrackInfo
  | [] => []
  | t :: ts => { t with queueId := n } :: renumberFrom (n + 1) ts

/-- `MockPlayer::adjust_queue_ids` (src/heos/src/mock.rs lines 335-343): the
now-playing slot's queue id is set to 0 and the queue's ids are reassigned to
the enumeration indices, starting at 0. -/
def MockPlayer.adjustQueueIds (p : MockPlayer) : MockPlayer :=
  { p with nowPlayingQueueId := 0, queue := renumberFrom 0 p.queue }

/-- Mock handler for `player/play_queue`: if the queue id is in range the queue
is replaced by `split_off(qid)` (the tail from index `qid`) and ids are
adjusted; out of range yields an error (`none`). -/
def MockPlayer.playQueue (p : MockPlayer) (qid : Nat) : Option MockPlayer :=
  if qid < p.queue.length then
    some (MockPlayer.adjustQueueIds { p with queue := p.queue.drop qid })
  else none

/-- One step of the mock `player/remove_from_queue` loop: `queue.remove(qid)`
followed by `adjust_queue_ids`, or an out-of-range error. -/
def MockPlayer.removeOne (p : MockPlayer) (qid : Nat) : Option MockPlayer :=
  if qid < p.queue.length then
    some (MockPlayer.adjustQueueIds { p with queue := p.queue.eraseIdx qid })
  else none

/-- Insertion into an ascending list, used to model
`queue_ids.sort_by_cached_key(|id| **id)`. -/
def insertSorted (n : Nat) : List Nat → List Nat
  | [] => [n]
  | x :: xs => if n ≤ x then n :: x :: xs else x :: insertSorted n xs

/-- Ascending sort of queue ids, modelling `sort_by_cached_key`. -/
def sortAsc (l : List Nat) : List Nat := l.foldr insertSorted []

/-- The `for qid in queue_ids.into_iter().rev()` loop body of
`player/remove_from_queue`, applied to an explicit list of ids. -/
def MockPlayer.removeList : MockPlayer → List Nat → Option MockPlayer
  | p, [] => some p
  | p, qid :: rest =>
    match MockPlayer.removeOne p qid with
    | some p2 => MockPlayer.removeList p2 rest
    | none => none

/-- Mock handler for `player/remove_from_queue`: sort the requested ids
ascending, then remove them from highest to lowest, adjusting ids after each
removal. -/
def MockPlayer.removeFromQueue (p : MockPlayer) (qids : List Nat) : Option MockPlayer :=
  MockPlayer.removeList p (sortAsc qids).reverse

/-- Mock handler for `player/clear_queue`: `queue.clear()`. Note the source
does not call `adjust_queue_ids` here. -/
def MockPlayer.clearQueue (p : MockPlayer) : MockPlayer :=
  { p with queue := [] }

/-- Mock handler for `player/play_next`: `queue.remove(0)` (a panic — `none` —
on an empty queue), the removed song becomes the now-playing track, and ids
are adjusted. -/
def MockPlayer.playNext (p : MockPlayer) : Option MockPlayer :=
  match p.queue with
  | [] => none
  | song :: rest =>
    some (MockPlayer.adjustQueueIds
      { p with nowPlayingQueueId := song.queueId, queue := rest })

/-- The per-variant effect of the mock `browse/add_to_queue` handler
(src/heos/src/mock.rs lines 1409-1436), followed by `adjust_queue_ids`. -/
def MockPlayer.addToQueue (p : MockPlayer) (track : QueuedTrackInfo)
    (t : AddToQueueType) : MockPlayer :=
  MockPlayer.adjustQueueIds <|
    match t with
    | .playNow => { p with nowPlayingQueueId := track.queueId }
    | .playNext => { p with queue := track :: p.queue }
    | .addToEnd => { p with queue := p.queue ++ [track] }
    | .replaceAndPlay => { p with nowPlayingQueueId := track.queueId, queue := [] }

/-- The classification loop of the mock `player/move_queue_item` handler
(src/heos/src/mock.rs lines 1160-1193): walk the old queue once; when the item
carrying the destination id is reached, `past_mid` becomes true; items whose id
is in the source set go to `mid`, the rest to `post` once past the destination
and to `pre` before it. The source set is a `HashSet`; only membership is used,
so it is modelled by list membership. -/
def moveSplit (src : List Nat) (dst : Nat) :
    Bool → List QueuedTrackInfo →
      List QueuedTrackInfo × List QueuedTrackInfo × List QueuedTrackInfo
  | _, [] => ([], [], [])
  | past, t :: ts =>
    let past2 := past || (t.queueId == dst)
    let r := moveSplit src dst past2 ts
    if src.contains t.queueId then (r.1, t :: r.2.1, r.2.2)
    else if past2 then (r.1, r.2.1, t :: r.2.2)
    else (t :: r.1, r.2.1, r.2.2)

/-- Mock handler for `player/move_queue_item`: rebuild the queue as
`pre ++ mid ++ post` and adjust ids. -/
def MockPlayer.moveQueueItem (p : MockPlayer) (src : List Nat) (dst : Nat) :
    MockPlayer :=
  let r := moveSplit src dst false p.queue
  MockPlayer.adjustQueueIds { p with queue := r.1 ++ r.2.1 ++ r.2.2 }

/-- The queue invariant claimed by the specification: queue ids are contiguous
`1..=N` in order, and the now-playing slot has queue id 0. -/
def specQueueInvariant (p : MockPlayer) : Prop :=
  p.queue.map QueuedTrackInfo.queueId = List.range' 1 p.queue.length ∧
  p.nowPlayingQueueId = 0

/-- The queue invariant the mock source actually establishes: queue ids are
the enumeration indices `0..=N-1` in order, and the now-playing slot has queue
id 0. -/
def codeQueueInvariant (p : MockPlayer) : Prop :=
  p.queue.map QueuedTrackInfo.queueId = List.range p.queue.length ∧
  p.nowPlayingQueueId = 0

/-- Formalisation of the specification's `move_queue_item` description in its
own words (for comparison with the source's `moveQueueItem`): the moved items
(in original order) become one contiguous block whose first index is the
destination, and the preserved items keep their original relative order. The
result is compared via the `song` labels because `adjust_queue_ids` renumbers
the id fields afterwards. -/
def c3ClaimOrder (q : List QueuedTrackInfo) (src : List Nat) (dst : Nat) :
    List String :=
  let moved := (q.filter (fun t => src.contains t.queueId)).map QueuedTrackInfo.song
  let preserved :=
    (q.filter (fun t => ! src.contains t.queueId)).map QueuedTrackInfo.song
  preserved.take (dst - 1) ++ moved ++ preserved.drop (dst - 1)

/-- `GroupRole` from src/heos/src/data/group.rs. -/
inductive GroupRole
  | leader
  | member
deriving Repr, DecidableEq

/-- A member entry of `GroupInfo.players` (src/heos/src/data/group.rs). -/
structure GroupPlayer where
  name : String
  playerId : Int
  role : GroupRole
deriving Repr, DecidableEq

/-- `GroupInfo` from src/heos/src/data/group.rs. -/
structure GroupInfo where
  name : String
  groupId : Int
  players : List GroupPlayer
deriving Repr, DecidableEq

/-- `MockGroup` from src/heos/src/mock.rs: a `GroupSnapshot` with the cached
leader id and the mutable group volume and mute state. -/
structure MockGroup where
  info : GroupInfo
  leaderId : Int
  volume : Volume
  mute : MuteState
deriving Repr, DecidableEq

/-- `MockGroup::new`: the leader id is the first player with role `Leader`;
the source panics (`none` here) when no leader is present; volume starts at
100 and mute off. -/
def MockGroup.new? (info : GroupInfo) : Option MockGroup :=
  (info.players.find? (fun p => p.role == GroupRole.leader)).map
    (fun leader =>
      { info := info, leaderId := leader.playerId, volume := ⟨100⟩, mute := .off })

/-- The claims-relevant fields of `MockHeosSystem` from src/heos/src/mock.rs
(the source/playlist tables are not touched by any claim considered here).
The `MockDataSet` tables are `HashMap`s keyed by id; they are modelled as
lists whose keys are unique in every reachable state. -/
structure MockHeosSystem where
  username : Option String
  players : List MockPlayer
  groups : List MockGroup
deriving Repr, DecidableEq

/-- `MockDataSet::get` on the player table, keyed by `PlayerId`. -/
def findPlayer (sys : MockHeosSystem) (pid : Int) : Option MockPlayer :=
  sys.players.find? (fun p => p.playerId == pid)

/-- The `for group in &system.groups` scan of the mock `group/set_group`
handler: the group id of the last group whose cached `leader_id` equals the
requested leader. -/
def findLeaderGid (groups : List MockGroup) (pid : Int) : Option Int :=
  groups.foldl
    (fun acc g => if g.leaderId == pid then some g.info.groupId else acc) none

/-- `MockDataSet::remove` on the group table. -/
def removeGroup (groups : List MockGroup) (gid : Int) : List MockGroup :=
  groups.filter (fun g => ! (g.info.groupId == gid))

/-- The membership-replacement write of the mock `group/set_group` handler:
`group.snapshot.info.name = name; group.snapshot.info.players = players` on
the group with the given id. -/
def updateGroup (groups : List MockGroup) (gid : Int) (name : String)
    (players : List GroupPlayer) : List MockGroup :=
  groups.map (fun g =>
    if g.info.groupId == gid then
      { g with info := { g.info with name := name, players := players } }
    else g)

/-- `MockDataSet::insert` on the group table: a `HashMap` insert keyed by the
group id (replace an existing entry, otherwise add). -/
def insertGroup (groups : List MockGroup) (g : MockGroup) : List MockGroup :=
  if groups.any (fun g2 => g2.info.groupId == g.info.groupId) then
    groups.map (fun g2 => if g2.info.groupId == g.info.groupId then g else g2)
  else groups ++ [g]

/-- Helper for `hashSetOf`: drop elements already seen. -/
def dedupAux (seen : List Int) : List Int → List Int
  | [] => []
  | x :: xs => if seen.contains x then dedupAux seen xs else x :: dedupAux (x :: seen) xs

/-- Models collecting `player_ids[1..]` into a `HashSet` and iterating it.
The hash iteration order is unspecified in the source; it is modelled as
first-occurrence order with duplicates removed. -/
def hashSetOf (l : List Int) : List Int := dedupAux [] l

/-- The member-resolution chain of the mock `group/set_group` handler: each
requested id is looked up in the player table and becomes a `Member` entry,
failing fast with the offending id on the first unknown one. -/
def mkMembers (sys : MockHeosSystem) : List Int → Except String (List GroupPlayer)
  | [] => .ok []
  | pid :: rest =>
    match findPlayer sys pid with
    | none => .error (toString pid)
    | some pl =>
      match mkMembers sys rest with
      | .ok gs => .ok ({ name := pl.name, playerId := pid, role := .member } :: gs)
      | .error e => .error e

/-- `players.iter().map(|p| p.name.as_str()).collect::<Vec<_>>().join("+")`. -/
def joinNames (ps : List GroupPlayer) : String :=
  String.intercalate "+" (ps.map GroupPlayer.name)

/-- Outcome of the mock `group/set_group` handler. `successDeleted` is the
plain success response of the deletion branch; `successGroup` is the success
response reflecting the extra `gid`/`name` parameters; `errInvalidId` is
`invalid_id_error(command, "pid", id_val)`; `panicked` models the
`MockGroup::new` panic when no leader exists (unreachable from the handler). -/
inductive SetGroupOutcome
  | successDeleted
  | successGroup (gid : Int) (name : String)
  | errInvalidId (idVal : String)
  | panicked
deriving Repr, DecidableEq

/-- The mock `group/set_group` handler (src/heos/src/mock.rs lines
1257-1337). -/
def setGroup (sys : MockHeosSystem) (playerIds : List Int) :
    SetGroupOutcome × MockHeosSystem :=
  match playerIds with
  | [] => (.errInvalidId "", sys)
  | leaderId :: rest =>
    let gid? := findLeaderGid sys.groups leaderId
    if rest = [] then
      match gid? with
      | some gid => (.successDeleted, { sys with groups := removeGroup sys.groups gid })
      | none => (.errInvalidId (toString leaderId), sys)
    else
      match findPlayer sys leaderId with
      | none => (.errInvalidId (toString leaderId), sys)
      | some leaderPl =>
        let leaderGP : GroupPlayer :=
          { name := leaderPl.name, playerId := leaderId, role := .leader }
        match mkMembers sys (hashSetOf rest) with
        | .error v => (.errInvalidId v, sys)
        | .ok members =>
          let players := leaderGP :: members
          let name := joinNames players
          match gid? with
          | some gid =>
            (.successGroup gid name,
             { sys with groups := updateGroup sys.groups gid name players })
          | none =>
            match MockGroup.new? { name := name, groupId := leaderId, players := players } with
            | some g =>
              (.successGroup leaderId name,
               { sys with groups := insertGroup sys.groups g })
            | none => (.panicked, sys)

/-- Outcome of the mock volume and quickselect handlers considered here. -/
inductive HandlerResult
  | success
  | errInvalidId (idType : String) (idVal : String)
  | errInvalidArg (arg : String)
deriving Repr, DecidableEq

/-- `parse_command_argument_default::<VolumeStep>`: an absent `step` parameter
yields the default (5); a present one is parsed through the bounds-checked
constructor. The raw wire number is modelled as a `Nat`. -/
def parseVolumeStep (step? : Option Nat) : Except Unit VolumeStep :=
  match step? with
  | none => .ok VolumeStep.defaultStep
  | some n =>
    match VolumeStep.new n with
    | .ok v => .ok v
    | .error _ => .error ()

/-- Mock handler for `player/volume_up` (src/heos/src/mock.rs lines
1057-1061): the player is looked up, the step parsed, and
`player.snapshot.volume.saturating_add(step)` is computed — and its result
discarded, exactly as in the source, which never assigns it back. -/
def mockPlayerVolumeUp (sys : MockHeosSystem) (pid : Int) (step? : Option Nat) :
    HandlerResult × MockHeosSystem :=
  match findPlayer sys pid with
  | none => (.errInvalidId "pid" (toString pid), sys)
  | some player =>
    match parseVolumeStep step? with
    | .error _ => (.errInvalidArg "step", sys)
    | .ok step =>
      let _ := player.volume.saturatingAdd step.val
      (.success, sys)

/-- Mock handler for `player/volume_down` (src/heos/src/mock.rs lines
1062-1066): same shape, with `saturating_sub` computed and discarded. -/
def mockPlayerVolumeDown (sys : MockHeosSystem) (pid : Int) (step? : Option Nat) :
    HandlerResult × MockHeosSystem :=
  match findPlayer sys pid with
  | none => (.errInvalidId "pid" (toString pid), sys)
  | some player =>
    match parseVolumeStep step? with
    | .error _ => (.errInvalidArg "step", sys)
    | .ok step =>
      let _ := player.volume.saturatingSub step.val
      (.success, sys)

/-- `MockDataSet::get` on the group table, keyed by `GroupId`. -/
def findGroup (sys : MockHeosSystem) (gid : Int) : Option MockGroup :=
  sys.groups.find? (fun g => g.info.groupId == gid)

/-- Mock handler for `group/volume_up` (src/heos/src/mock.rs lines
1349-1353): `group.snapshot.volume.saturating_add(step)` computed and
discarded. -/
def mockGroupVolumeUp (sys : MockHeosSystem) (gid : Int) (step? : Option Nat) :
    HandlerResult × MockHeosSystem :=
  match findGroup sys gid with
  | none => (.errInvalidId "gid" (toString gid), sys)
  | some group =>
    match parseVolumeStep step? with
    | .error _ => (.errInvalidArg "step", sys)
    | .ok step =>
      let _ := group.volume.saturatingAdd step.val
      (.success, sys)

/-- Mock handler for `group/volume_down` (src/heos/src/mock.rs lines
1354-1358). -/
def mockGroupVolumeDown (sys : MockHeosSystem) (gid : Int) (step? : Option Nat) :
    HandlerResult × MockHeosSystem :=
  match findGroup sys gid with
  | none => (.errInvalidId "gid" (toString gid), sys)
  | some group =>
    match parseVolumeStep step? with
    | .error _ => (.errInvalidArg "step", sys)
    | .ok step =>
      let _ := group.volume.saturatingSub step.val
      (.success, sys)

/-- Outcome of the mock `player/get_quickselects` handler. `panicked` models
the abort caused by an out-of-bounds index into the 6-element
`player.quickselects` array. -/
inductive QsResult
  | payload (qs : List QuickSelect)
  | panicked
  | errInvalidId (idVal : String)
  | errInvalidArg (arg : String)
deriving Repr, DecidableEq

/-- Mock handler for `player/get_quickselects` (src/heos/src/mock.rs lines
1223-1235). An explicit `id` parameter is parsed through `QuickSelectId`
(an `i64` bounded to `1..=6`), then used directly as the array index:
`player.quickselects[*id as usize]`. With no `id`, all slots are returned. -/
def mockGetQuickselects (sys : MockHeosSystem) (pid : Int) (id? : Option Int) :
    QsResult :=
  match findPlayer sys pid with
  | none => .errInvalidId (toString pid)
  | some player =>
    match id? with
    | some n =>
      if n ≤ 6 ∧ 1 ≤ n then
        match player.quickselects.get? n.toNat with
        | some q => .payload [q]
        | none => .panicked
      else .errInvalidArg "id"
    | none => .payload player.quickselects

/-- Replace the value under the first matching key of an association list, or
append a new entry; models map insertion for the channel model's tables. -/
def assocSet {α β : Type} [BEq α] : List (α × β) → α → β → List (α × β)
  | [], k, v => [(k, v)]
  | p :: ps, k, v => if p.1 == k then (k, v) :: ps else p :: assocSet ps k v

/-- Lookup in an association list. -/
def assocGet {α β : Type} [BEq α] (l : List (α × β)) (k : α) : Option β :=
  (l.find? (fun p => p.1 == k)).map Prod.snd

/-- `ResponseCache` from src/heos/src/channel.rs: the one-shot sender for the
next immediate reply, the map from sequence to delayed slot, and the
`last_delayed` pointer. The one-shot sender and the delayed slots are tracked
by the sequence number of the `send_raw_command` call that installed them; a
delayed slot's content is the id of the response frame written into it
(`none` while empty). -/
structure ResponseCache where
  current : Option Nat
  delayed : List (Nat × Option Nat)
  lastDelayed : Option Nat
deriving Repr, DecidableEq

/-- The empty cache produced by `ResponseCache::default()`. -/
def ResponseCache.empty : ResponseCache := ⟨none, [], none⟩

/-- Where a `send_raw_command` caller stands. `awaitingImmediate` models the
await of the one-shot receiver; `awaitingSlot` the await of the delayed-slot
future after a delay acknowledgement; `done none` a broken-pipe error (the
one-shot sender was dropped); `done (some rid)` completion with response
frame `rid`. -/
inductive CallerPhase
  | awaitingImmediate
  | awaitingSlot
  | done (rid : Option Nat)
deriving Repr, DecidableEq

/-- The channel model: the `ChannelState` response caches keyed by the
command name, plus the observable state of every caller keyed by its
sequence number. -/
structure ChannelModel where
  caches : List (String × ResponseCache)
  callers : List (Nat × CallerPhase)
deriving Repr, DecidableEq

/-- The events the channel reacts to. `send name i` is the registration part
of `Channel::send_raw_command` (sequence `i` already allocated and injected);
`delayAck name` is an inbound frame whose message starts with
"command under process"; `reply name seq rid` is an inbound final reply for
`name` carrying the reflected `SEQUENCE` value `seq` (or none) — `rid`
identifies the frame itself. -/
inductive ChanEvent
  | send (name : String) (seq : Nat)
  | delayAck (name : String)
  | reply (name : String) (seq : Option Nat) (rid : Nat)
deriving Repr, DecidableEq

/-- Read a cache (`response_caches.get`). -/
def ChannelModel.getCache (s : ChannelModel) (name : String) :
    Option ResponseCache :=
  assocGet s.caches name

/-- Write a cache (`response_caches.entry(..)` / `get_mut`). -/
def ChannelModel.setCache (s : ChannelModel) (name : String)
    (c : ResponseCache) : ChannelModel :=
  { s with caches := assocSet s.caches name c }

/-- Read a caller phase. -/
def ChannelModel.getCaller (s : ChannelModel) (i : Nat) : Option CallerPhase :=
  assocGet s.callers i

/-- Write a caller phase. -/
def ChannelModel.setCaller (s : ChannelModel) (i : Nat) (ph : CallerPhase) :
    ChannelModel :=
  { s with callers := assocSet s.callers i ph }

/-- One transition of the channel model.

`send` performs steps 1-2 of the send path of `Channel::send_raw_command`
(lines 374-391): install a fresh one-shot sender as `current` (dropping — and
thereby failing with a broken pipe — any previous pending one), insert an
empty delayed slot under the sequence, and point `last_delayed` at it.

`delayAck` and `reply` perform `ChannelState::handle_response`
(lines 160-225). A reply consumed through `current` also performs the
caller-side cleanup of `send_raw_command` (lines 397-408): the caller's own
delayed slot is removed and `last_delayed` cleared when it points there (the
cleanup runs inside the same call before it returns). -/
def ChannelModel.step (s : ChannelModel) : ChanEvent → ChannelModel
  | .send name i =>
    let c := (s.getCache name).getD ResponseCache.empty
    let s1 := match c.current with
      | some j => s.setCaller j (.done none)
      | none => s
    let c2 : ResponseCache :=
      { current := some i, delayed := assocSet c.delayed i none,
        lastDelayed := some i }
    (s1.setCache name c2).setCaller i .awaitingImmediate
  | .delayAck name =>
    match s.getCache name with
    | none => s
    | some c =>
      match c.current with
      | some j => (s.setCache name { c with current := none }).setCaller j .awaitingSlot
      | none => s
  | .reply name seq rid =>
    match s.getCache name with
    | none => s
    | some c =>
      match c.current with
      | some j =>
        let c2 : ResponseCache :=
          { current := none,
            delayed := c.delayed.filter (fun p => ! (p.1 == j)),
            lastDelayed := if c.lastDelayed == some j then none else c.lastDelayed }
        (s.setCache name c2).setCaller j (.done (some rid))
      | none =>
        match seq with
        | some m =>
          if (c.delayed.find? (fun p => p.1 == m)).isSome then
            let c2 : ResponseCache :=
              { current := none,
                delayed := c.delayed.filter (fun p => ! (p.1 == m)),
                lastDelayed := if c.lastDelayed == some m then none else c.lastDelayed }
            let s2 := s.setCache name c2
            match s.getCaller m with
            | some .awaitingSlot => s2.setCaller m (.done (some rid))
            | _ => s2
          else s
        | none =>
          match c.lastDelayed with
          | some l =>
            let c2 : ResponseCache :=
              { current := none,
                delayed := c.delayed.filter (fun p => ! (p.1 == l)),
                lastDelayed := none }
            let s2 := s.setCache name c2
            match s.getCaller l with
            | some .awaitingSlot => s2.setCaller l (.done (some rid))
            | _ => s2
          | none => s

/-- The state of a fresh channel. -/
def ChannelModel.init : ChannelModel := ⟨[], []⟩

/-- Run a trace of events from the fresh channel. -/
def ChannelModel.run (tr : List ChanEvent) : ChannelModel :=
  tr.foldl ChannelModel.step ChannelModel.init

/-- The sequence of the most recently sent command of a given name in a
trace. -/
def lastSent (tr : List ChanEvent) (name : String) : Option Nat :=
  tr.foldl
    (fun acc e =>
      match e with
      | .send n i => if n == name then some i else acc
      | _ => acc)
    none

/-- The three events of one fully serialized `send_raw_command` call: the
send, optionally the delay acknowledgement, and the final reply reflecting
the injected sequence. -/
def callBlock (name : String) (i rid : Nat) (delayed : Bool) : List ChanEvent :=
  if delayed then [.send name i, .delayAck name, .reply name (some i) rid]
  else [.send name i, .reply name (some i) rid]

/-- A trace of fully serialized calls: each call's events complete before the
next call starts, which is how the library drives the channel (the channel is
used behind a mutex held for the whole call). Each tuple is
(command name, sequence, reply frame id, whether the device delays). -/
def serializedTrace : List (String × Nat × Nat × Bool) → List ChanEvent
  | [] => []
  | (name, i, rid, d) :: rest => callBlock name i rid d ++ serializedTrace rest

/-- The now-playing progress state of one player
(src/heos/src/state/player.rs): `NowPlayingProgress` plus the play state that
gates the baseline updates. Times are `Nat` milliseconds; `baseline` is the
monotonic anchor. -/
structure ProgressState where
  playState : PlayState
  elapsed : Nat
  duration : Nat
  baseline : Option Nat
deriving Repr, DecidableEq

/-- `NowPlayingProgress::interpolated_elapsed` (lines 51-58), with the
current instant passed explicitly:
`(elapsed + (now - baseline)).min(duration)` when a baseline is set,
otherwise the stored `elapsed`. -/
def interpolatedElapsed (p : ProgressState) (now : Nat) : Nat :=
  match p.baseline with
  | some b => min (p.elapsed + (now - b)) p.duration
  | none => p.elapsed

/-- The events applied to a player's progress state by the dispatcher: play
state changes, now-playing changes and progress events, each carrying the
instant at which it is handled. -/
inductive ProgressEvent
  | playStateChange (s : PlayState) (now : Nat)
  | nowPlayingChange (now : Nat)
  | progress (elapsed duration now : Nat)
deriving Repr, DecidableEq

/-- `PlayerData::update_play_state`, `update_now_playing` and
`update_now_playing_progress` (src/heos/src/state/player.rs lines 130-177),
restricted to the progress-relevant fields. -/
def ProgressState.applyEvent (p : ProgressState) : ProgressEvent → ProgressState
  | .playStateChange s now =>
    match s with
    | .play =>
      { p with
        playState := .play
        baseline := (match p.baseline with | some b => some b | none => some now) }
    | .pause =>
      { p with
        playState := .pause
        elapsed := interpolatedElapsed p now
        baseline := none }
    | .stop =>
      { p with
        playState := .stop
        elapsed := interpolatedElapsed p now
        baseline := none }
  | .nowPlayingChange now =>
    { p with
      elapsed := 0
      duration := 0
      baseline := if p.playState = .play then some now else none }
  | .progress e d now =>
    { p with
      elapsed := e
      duration := d
      baseline := if p.playState = .play then some now else p.baseline }

/-- The initial progress state built by `PlayerData::get` (lines 88-95):
elapsed and duration zero, no baseline, and the play state fetched from the
device. -/
def ProgressState.init (s : PlayState) : ProgressState := ⟨s, 0, 0, none⟩

/-- Apply a sequence of events to a player's progress state. -/
def ProgressState.runEvents (s0 : PlayState) (evs : List ProgressEvent) :
    ProgressState :=
  evs.foldl ProgressState.applyEvent (ProgressState.init s0)

/-- A progress event is well-formed when a reported elapsed time does not
exceed the reported duration. -/
def goodProgressEvent : ProgressEvent → Prop
  | .progress e d _ => e ≤ d
  | _ => True

/-- A channel state all of whose response caches are empty: no pending
one-shot sender, no delayed slots, no `last_delayed` pointer. This is the
state between two fully serialized calls. -/
def AllClean (s : ChannelModel) : Prop :=
  ∀ p ∈ s.caches, p.2 = ResponseCache.empty

/-- Concrete track fixture used by the examples below. -/
def mkTrack (s : String) (qid : Nat) : QueuedTrackInfo :=
  ⟨s, "", "", none, "", qid, none⟩

/-- The 6 default quickselect slots installed by `MockPlayer::new`. -/
def defaultQuickselects : List QuickSelect :=
  [⟨1, "QuickSelect1"⟩, ⟨2, "QuickSelect2"⟩, ⟨3, "QuickSelect3"⟩,
   ⟨4, "QuickSelect4"⟩, ⟨5, "QuickSelect5"⟩, ⟨6, "QuickSelect6"⟩]

/-- A player in the state `MockPlayer::new` produces: stopped, volume 100,
mute off, repeat and shuffle off, empty queue, now-playing queue id 0. -/
def basePlayer : MockPlayer :=
  { playerId := 1, name := "Player1", nowPlayingQueueId := 0, queue := [],
    playState := .stop, volume := ⟨100⟩, mute := .off, repeatMode := .off,
    shuffle := .off, quickselects := defaultQuickselects }

/-- Fixture for the C2 counterexample: a two-track queue numbered the way
`adjust_queue_ids` numbers it (from 0). -/
def c2Player : MockPlayer :=
  { basePlayer with queue := [mkTrack "a" 0, mkTrack "b" 1] }

/-- The result of removing queue id 0 from `c2Player`'s queue. -/
def c2After : MockPlayer :=
  { basePlayer with queue := [mkTrack "b" 0] }

/-- Fixture for the C3 claims: four tracks labelled by their 1-based
positional queue ids, as in the specification's scenario 5. -/
def c3Player : MockPlayer :=
  { basePlayer with queue :=
      [mkTrack "1" 1, mkTrack "2" 2, mkTrack "3" 3, mkTrack "4" 4] }

/-- The leader `GroupPlayer` entry the mock `group/set_group` handler builds
from the resolved leader player and the requested leader id. -/
def mkLeaderEntry (leaderPl : MockPlayer) (leaderId : Int) : GroupPlayer :=
  { name := leaderPl.name, playerId := leaderId, role := .leader }

/-- The leader entry built by the mock `group/set_group` handler for
player 42 of `c4Sys`. -/
def c4Leader : GroupPlayer := { name := "Player42", playerId := 42, role := .leader }

/-- The member entry built for player 43 of `c4Sys`. -/
def c4Member : GroupPlayer := { name := "Player43", playerId := 43, role := .member }

/-- The player list of the group created by `set_group [42, 43]`. -/
def c4Players : List GroupPlayer := [c4Leader, c4Member]

/-- Concrete player 42. -/
def c4P42 : MockPlayer := { basePlayer with playerId := 42, name := "Player42" }

/-- Concrete player 43. -/
def c4P43 : MockPlayer := { basePlayer with playerId := 43, name := "Player43" }

/-- Fixture system with two ungrouped players, as in the specification's
scenario 4. -/
def c4Sys : MockHeosSystem :=
  { username := none, players := [c4P42, c4P43], groups := [] }

/-- The same system after a group led by 42 exists. -/
def c4SysGrouped : MockHeosSystem :=
  { c4Sys with groups :=
      [{ info := { name := "Player42+Player43", groupId := 42, players := c4Players },
         leaderId := 42, volume := ⟨100⟩, mute := .off }] }

/-- The interleaving refuting the unrestricted SEQUENCE-correlation claim:
caller 0 sends and its delay acknowledgement arrives; caller 1 then sends the
same command; caller 0's final reply (frame 100, SEQUENCE 0) arrives while
caller 1's one-shot receiver is pending, followed by caller 1's final reply
(frame 101, SEQUENCE 1). -/
def c1Trace : List ChanEvent :=
  [.send "player/get_volume" 0,
   .delayAck "player/get_volume",
   .send "player/get_volume" 1,
   .reply "player/get_volume" (some 0) 100,
   .reply "player/get_volume" (some 1) 101]

/-- A channel state with one delayed command pending: a send followed by its
delay acknowledgement. -/
def c7State : ChannelModel :=
  ChannelModel.run [.send "player/get_queue" 0, .delayAck "player/get_queue"]

/-- A well-formed event sequence exercising the progress interpolation: play,
then a progress event 30 s into a 200 s track. -/
def c8Events : List ProgressEvent :=
  [.playStateChange .play 0, .progress 30000 200000 1000]

/-- Run a trace of events from an arbitrary channel state. -/
def runFrom (s : ChannelModel) (tr : List ChanEvent) : ChannelModel :=
  tr.foldl ChannelModel.step s

/-- Two serialized calls of the same command, the first delayed: the witness
input for the serialized-correlation theorem. -/
def c1Calls : List (String × Nat × Nat × Bool) :=
  [("player/get_volume", 0, 100, true), ("player/get_volume", 1, 101, false)]

/-- C5: for every integer in the `u16` domain, constructing `Volume(n)`
succeeds exactly when `0 ≤ n ≤ 100` and `VolumeStep(n)` exactly when
`0 ≤ n ≤ 10`, failing otherwise with an `OutOfBounds` error carrying the
offending value; saturating addition and subtraction never leave the bounds;
and `VolumeStep` defaults to 5. -/
theorem c5_bounded_numerics :
    (∀ n : Nat, n < 65536 →
      ((∃ v, Volume.new n = .ok v ∧ v.val = n) ↔ (0 ≤ n ∧ n ≤ 100)) ∧
      (¬ (0 ≤ n ∧ n ≤ 100) → Volume.new n = .error ⟨n, 0, 100⟩) ∧
      ((∃ v, VolumeStep.new n = .ok v ∧ v.val = n) ↔ (0 ≤ n ∧ n ≤ 10)) ∧
      (¬ (0 ≤ n ∧ n ≤ 10) → VolumeStep.new n = .error ⟨n, 0, 10⟩)) ∧
    (∀ (v : Volume) (rhs : Nat), v.val ≤ 100 →
      Volume.minVal ≤ (v.saturatingAdd rhs).val ∧
      (v.saturatingAdd rhs).val ≤ Volume.maxVal ∧
      Volume.minVal ≤ (v.saturatingSub rhs).val ∧
      (v.saturatingSub rhs).val ≤ Volume.maxVal) ∧
    (∀ (s : VolumeStep) (rhs : Nat), s.val ≤ 10 →
      (s.saturatingAdd rhs).val ≤ VolumeStep.maxVal ∧
      (s.saturatingSub rhs).val ≤ VolumeStep.maxVal) ∧
    VolumeStep.defaultStep.val = 5 := by
  refine ⟨?_, ?_, ?_, rfl⟩
  · intro n _
    refine ⟨?_, ?_, ?_, ?_⟩ <;>
      simp only [Volume.new, VolumeStep.new, Volume.maxVal, Volume.minVal,
        VolumeStep.maxVal, VolumeStep.minVal] <;>
      split <;> rename_i h <;> simp <;> omega
  · intro v rhs h
    simp only [Volume.saturatingAdd, Volume.saturatingSub, u16SaturatingAdd,
      u16Max, Volume.maxVal, Volume.minVal]
    omega
  · intro s rhs h
    simp only [VolumeStep.saturatingAdd, VolumeStep.saturatingSub,
      u16SaturatingAdd, u16Max, VolumeStep.maxVal, VolumeStep.minVal]
    omega

/-- Witness for C5 at concrete inputs. -/
theorem c5_witness :
    Volume.new 101 = .error ⟨101, 0, 100⟩ ∧
    ((⟨100⟩ : Volume).saturatingAdd 5).val ≤ Volume.maxVal ∧
    ((⟨3⟩ : VolumeStep).saturatingSub 7).val ≤ VolumeStep.maxVal :=
  ⟨(c5_bounded_numerics.1 101 (by norm_num)).2.1 (by norm_num),
   (c5_bounded_numerics.2.1 ⟨100⟩ 5 (by norm_num)).2.1,
   (c5_bounded_numerics.2.2.1 ⟨3⟩ 7 (by norm_num)).2⟩

theorem map_queueId_renumberFrom (n : Nat) (l : List QueuedTrackInfo) :
    (renumberFrom n l).map QueuedTrackInfo.queueId = List.range' n l.length := by
  induction l generalizing n with
  | nil => rfl
  | cons t ts ih =>
    simp only [renumberFrom, List.map_cons, List.length_cons, List.range'_succ, ih]

theorem map_song_renumberFrom (n : Nat) (l : List QueuedTrackInfo) :
    (renumberFrom n l).map QueuedTrackInfo.song = l.map QueuedTrackInfo.song := by
  induction l generalizing n with
  | nil => rfl
  | cons t ts ih => simp only [renumberFrom, List.map_cons, ih]

theorem length_renumberFrom (n : Nat) (l : List QueuedTrackInfo) :
    (renumberFrom n l).length = l.length := by
  induction l generalizing n with
  | nil => rfl
  | cons t ts ih => simp only [renumberFrom, List.length_cons, ih]

theorem adjust_codeQueueInvariant (p : MockPlayer) :
    codeQueueInvariant p.adjustQueueIds := by
  unfold codeQueueInvariant MockPlayer.adjustQueueIds
  refine ⟨?_, rfl⟩
  rw [length_renumberFrom, map_queueId_renumberFrom, List.range_eq_range']

theorem removeOne_codeQueueInvariant (p : MockPlayer) (x : Nat) (q : MockPlayer)
    (h : MockPlayer.removeOne p x = some q) : codeQueueInvariant q := by
  unfold MockPlayer.removeOne at h
  split at h
  · cases h
    exact adjust_codeQueueInvariant _
  · cases h

theorem removeList_codeQueueInvariant :
    ∀ (l : List Nat) (p q : MockPlayer), l ≠ [] →
      MockPlayer.removeList p l = some q → codeQueueInvariant q := by
  intro l
  induction l with
  | nil => intro p q h; exact absurd rfl h
  | cons x rest ih =>
    intro p q _ hrun
    unfold MockPlayer.removeList at hrun
    cases hx : MockPlayer.removeOne p x with
    | none => rw [hx] at hrun; cases hrun
    | some p2 =>
      rw [hx] at hrun
      cases rest with
      | nil =>
        cases hrun
        exact removeOne_codeQueueInvariant p x q hx
      | cons y ys => exact ih p2 q (by simp) hrun

theorem length_insertSorted (n : Nat) (l : List Nat) :
    (insertSorted n l).length = l.length + 1 := by
  induction l with
  | nil => rfl
  | cons x xs ih =>
    unfold insertSorted
    split
    · rfl
    · simp only [List.length_cons, ih]

theorem length_sortAsc (l : List Nat) : (sortAsc l).length = l.length := by
  induction l with
  | nil => rfl
  | cons x xs ih =>
    show (insertSorted x (sortAsc xs)).length = xs.length + 1
    rw [length_insertSorted, ih]

/-- C2 counterexample: removing queue id 0 from a two-track queue leaves one
track whose stored queue id is 0, not 1 as the claimed `1..=N` numbering
requires — `adjust_queue_ids` numbers the queue from 0. -/
theorem c2_counterexample :
    MockPlayer.removeFromQueue c2Player [0] = some c2After ∧
    c2After.queue.map QueuedTrackInfo.queueId = [0] ∧
    ¬ specQueueInvariant c2After := by
  refine ⟨by decide, by decide, ?_⟩
  intro h
  exact absurd h.1 (by decide)

/-- C2 amended: after a successful `move_queue_item`, `remove_from_queue`,
`play_queue`, `play_next` or `add_to_queue` mutation the stored queue ids are
contiguous `0..=N-1` (not `1..=N`) and appear in order, and the now-playing
slot has queue id 0; `clear_queue` empties the queue without renumbering, so
it preserves a zero now-playing id rather than establishing it. -/
theorem c2_queue_invariant_amended (p : MockPlayer) :
    (∀ src dst, codeQueueInvariant (p.moveQueueItem src dst)) ∧
    (∀ qids q, qids ≠ [] → p.removeFromQueue qids = some q → codeQueueInvariant q) ∧
    (∀ qid q, p.playQueue qid = some q → codeQueueInvariant q) ∧
    (∀ q, p.playNext = some q → codeQueueInvariant q) ∧
    (∀ track t, codeQueueInvariant (p.addToQueue track t)) ∧
    (p.nowPlayingQueueId = 0 → codeQueueInvariant p.clearQueue) := by
  refine ⟨?_, ?_, ?_, ?_, ?_, ?_⟩
  · intro src dst
    exact adjust_codeQueueInvariant _
  · intro qids q hne hrun
    refine removeList_codeQueueInvariant _ _ _ ?_ hrun
    intro habs
    have : (sortAsc qids).reverse.length = 0 := by rw [habs]; rfl
    rw [List.length_reverse, length_sortAsc] at this
    exact hne (List.eq_nil_of_length_eq_zero this)
  · intro qid q h
    unfold MockPlayer.playQueue at h
    split at h
    · cases h; exact adjust_codeQueueInvariant _
    · cases h
  · intro q h
    unfold MockPlayer.playNext at h
    cases hq : p.queue with
    | nil => rw [hq] at h; cases h
    | cons song rest =>
      rw [hq] at h
      cases h
      exact adjust_codeQueueInvariant _
  · intro track t
    unfold MockPlayer.addToQueue
    cases t <;> exact adjust_codeQueueInvariant _
  · intro h
    exact ⟨rfl, h⟩

/-- Witness for C2 at concrete inputs. -/
theorem c2_witness :
    codeQueueInvariant c2After ∧ codeQueueInvariant c2Player.clearQueue :=
  ⟨(c2_queue_invariant_amended c2Player).2.1 [0] c2After (by decide) (by decide),
   (c2_queue_invariant_amended c2Player).2.2.2.2.2 (by decide)⟩

theorem moveSplit_true (src : List Nat) (dst : Nat) (l : List QueuedTrackInfo) :
    moveSplit src dst true l =
      ([], l.filter (fun t => src.contains t.queueId),
       l.filter (fun t => ! src.contains t.queueId)) := by
  induction l with
  | nil => rfl
  | cons t ts ih =>
    unfold moveSplit
    cases hc : src.contains t.queueId with
    | true =>
      have hmem : t.queueId ∈ src := by simpa using hc
      simp [Bool.true_or, ih, hc, hmem, List.filter_cons]
    | false =>
      have hmem : t.queueId ∉ src := by simpa using hc
      simp [Bool.true_or, ih, hc, hmem, List.filter_cons]

theorem moveSplit_positional (src : List Nat) (dst : Nat) :
    ∀ (q : List QueuedTrackInfo) (k : Nat),
      q.map QueuedTrackInfo.queueId = List.range' k q.length →
      k ≤ dst → dst < k + q.length →
      moveSplit src dst false q =
        ((q.take (dst - k)).filter (fun t => ! src.contains t.queueId),
         q.filter (fun t => src.contains t.queueId),
         (q.drop (dst - k)).filter (fun t => ! src.contains t.queueId)) := by
  intro q
  induction q with
  | nil =>
    intro k _ hk hdst
    simp only [List.length_nil] at hdst
    omega
  | cons t ts ih =>
    intro k hq hk hdst
    rw [List.length_cons, List.range'_succ, List.map_cons, List.cons_eq_cons] at hq
    obtain ⟨ht, hts⟩ := hq
    rcases Nat.lt_or_ge k dst with hkd | hkd
    · -- before the destination: the head id k is below dst
      have htne : (t.queueId == dst) = false := by
        simp only [beq_eq_false_iff_ne, ne_eq, ht]
        omega
      have hrec := ih (k + 1) hts (by omega) (by rw [List.length_cons] at hdst; omega)
      have hd : dst - k = (dst - (k + 1)) + 1 := by omega
      cases hc : src.contains t.queueId with
      | true =>
        have hmem : t.queueId ∈ src := by simpa using hc
        unfold moveSplit
        rw [hd]
        simp [htne, hmem, hrec, List.take_succ_cons, List.drop_succ_cons,
          List.filter_cons]
      | false =>
        have hmem : t.queueId ∉ src := by simpa using hc
        unfold moveSplit
        rw [hd]
        simp [htne, hmem, hrec, List.take_succ_cons, List.drop_succ_cons,
          List.filter_cons]
    · have hkdst : k = dst := Nat.le_antisymm hk hkd
      subst hkdst
      have htEq : (t.queueId == k) = true := by simp [ht]
      unfold moveSplit
      simp only [htEq, Bool.or_true, moveSplit_true, Nat.sub_self, List.take_zero,
        List.drop_zero]
      cases hc : src.contains t.queueId with
      | true =>
        have hmem : t.queueId ∈ src := by simpa using hc
        simp [List.filter_cons, hc, hmem]
      | false =>
        have hmem : t.queueId ∉ src := by simpa using hc
        simp [List.filter_cons, hc, hmem]

theorem length_filter_not_add (l : List QueuedTrackInfo) (src : List Nat) :
    (l.filter (fun t => ! src.contains t.queueId)).length
      + (l.filter (fun t => src.contains t.queueId)).length = l.length := by
  induction l with
  | nil => rfl
  | cons t ts ih =>
    cases hc : src.contains t.queueId with
    | true =>
      have hmem : t.queueId ∈ src := by simpa using hc
      rw [List.filter_cons, List.filter_cons, if_neg (by simp [hmem]), if_pos hc]
      simp only [List.length_cons]
      omega
    | false =>
      have hmem : t.queueId ∉ src := by simpa using hc
      rw [List.filter_cons, List.filter_cons, if_pos (by simp [hmem]),
        if_neg (by simp [hmem])]
      simp only [List.length_cons]
      omega

theorem queueId_lt_of_mem_take (q : List QueuedTrackInfo) :
    ∀ (k m : Nat), q.map QueuedTrackInfo.queueId = List.range' k q.length →
      ∀ t ∈ q.take m, t.queueId < k + m := by
  induction q with
  | nil =>
    intro k m _ t ht
    simp at ht
  | cons a ts ih =>
    intro k m hq t ht
    rw [List.length_cons, List.range'_succ, List.map_cons, List.cons_eq_cons] at hq
    obtain ⟨ha, hts⟩ := hq
    cases m with
    | zero => simp at ht
    | succ m2 =>
      rw [List.take_succ_cons] at ht
      rcases List.mem_cons.mp ht with h | h
      · subst h
        omega
      · have := ih (k + 1) m2 hts t h
        omega

/-- C3 counterexample: moving queue id 1 to destination 3 in a queue with
positional ids `[1,2,3,4]` yields item order `[2,1,3,4]` — the moved block is
inserted immediately before the destination item, which has shifted left; the
block's first index is 2, not the requested destination 3 as the claim's
general statement requires. -/
theorem c3_counterexample :
    (MockPlayer.moveQueueItem c3Player [1] 3).queue.map QueuedTrackInfo.song
      = ["2", "1", "3", "4"] ∧
    c3ClaimOrder c3Player.queue [1] 3 = ["2", "3", "1", "4"] ∧
    ¬ ((MockPlayer.moveQueueItem c3Player [1] 3).queue.map QueuedTrackInfo.song
        = c3ClaimOrder c3Player.queue [1] 3) := by
  decide

/-- C3 amended: for every queue with positional ids `1..=N` and every request
with destination `1 ≤ dst ≤ N`, (a) the moved items form one contiguous block
with both the moved and the preserved items keeping their original relative
order, and the block is placed directly after the preserved items drawn from
before the destination position — hence immediately before the destination
item whenever that item is not itself moved; (b) the block's first (0-based)
index is `dst - 1` minus the number of moved items lying before the
destination, i.e. moved ids before the destination shift the block left;
(c) the block's first index equals the destination, as the claim states,
exactly under the proviso that no moved queue id precedes the destination —
which covers the instance `src=[3,4]`, `dst=2` on ids `[1,2,3,4]`, yielding
order `[1,3,4,2]`. -/
theorem c3_move_queue_amended (p : MockPlayer) (src : List Nat) (dst : Nat)
    (hq : p.queue.map QueuedTrackInfo.queueId = List.range' 1 p.queue.length)
    (h1 : 1 ≤ dst) (h2 : dst ≤ p.queue.length) :
    (p.moveQueueItem src dst).queue.map QueuedTrackInfo.song =
      ((p.queue.take (dst - 1)).filter
          (fun t => ! src.contains t.queueId)).map QueuedTrackInfo.song
        ++ (p.queue.filter (fun t => src.contains t.queueId)).map QueuedTrackInfo.song
        ++ ((p.queue.drop (dst - 1)).filter
              (fun t => ! src.contains t.queueId)).map QueuedTrackInfo.song ∧
    ((p.queue.take (dst - 1)).filter (fun t => ! src.contains t.queueId)).length
      = (dst - 1)
        - ((p.queue.take (dst - 1)).filter (fun t => src.contains t.queueId)).length ∧
    ((∀ s ∈ src, dst ≤ s) →
      (p.moveQueueItem src dst).queue.map QueuedTrackInfo.song =
        c3ClaimOrder p.queue src dst) := by
  have hms := moveSplit_positional src dst p.queue 1 hq h1 (by omega)
  have hA : (p.moveQueueItem src dst).queue.map QueuedTrackInfo.song =
      ((p.queue.take (dst - 1)).filter
          (fun t => ! src.contains t.queueId)).map QueuedTrackInfo.song
        ++ (p.queue.filter (fun t => src.contains t.queueId)).map QueuedTrackInfo.song
        ++ ((p.queue.drop (dst - 1)).filter
              (fun t => ! src.contains t.queueId)).map QueuedTrackInfo.song := by
    unfold MockPlayer.moveQueueItem MockPlayer.adjustQueueIds
    simp only [hms, map_song_renumberFrom, List.map_append]
  refine ⟨hA, ?_, ?_⟩
  · have hlt : (p.queue.take (dst - 1)).length = dst - 1 := by
      rw [List.length_take]
      omega
    have hsum := length_filter_not_add (p.queue.take (dst - 1)) src
    omega
  · intro hsrc
    have hall : ∀ a ∈ p.queue.take (dst - 1),
        (fun t => ! src.contains t.queueId) a = true := by
      intro a ha
      have hlt := queueId_lt_of_mem_take p.queue 1 (dst - 1) hq a ha
      cases hc : src.contains a.queueId with
      | false => simpa using hc
      | true =>
        have hmem : a.queueId ∈ src := by simpa using hc
        have := hsrc _ hmem
        exfalso
        omega
    have htake : (p.queue.take (dst - 1)).filter (fun t => ! src.contains t.queueId)
        = p.queue.take (dst - 1) := List.filter_eq_self.mpr hall
    have hsplit : p.queue.filter (fun t => ! src.contains t.queueId)
        = p.queue.take (dst - 1)
          ++ (p.queue.drop (dst - 1)).filter (fun t => ! src.contains t.queueId) := by
      conv_lhs => rw [← List.take_append_drop (dst - 1) p.queue]
      rw [List.filter_append, htake]
    have hlenA : ((p.queue.take (dst - 1)).map QueuedTrackInfo.song).length = dst - 1 := by
      rw [List.length_map, List.length_take]
      omega
    have hco : c3ClaimOrder p.queue src dst
        = (p.queue.take (dst - 1)).map QueuedTrackInfo.song
          ++ (p.queue.filter (fun t => src.contains t.queueId)).map QueuedTrackInfo.song
          ++ ((p.queue.drop (dst - 1)).filter
                (fun t => ! src.contains t.queueId)).map QueuedTrackInfo.song := by
      simp only [c3ClaimOrder]
      rw [hsplit, List.map_append, List.take_left' hlenA, List.drop_left' hlenA]
    rw [hA, htake, hco]

/-- Witness for C3: the specification's concrete scenario (no moved id before
the destination), and a shifted placement (moved id 1 before destination 3)
computed through the general characterisation. -/
theorem c3_witness :
    (MockPlayer.moveQueueItem c3Player [3, 4] 2).queue.map QueuedTrackInfo.song
      = ["1", "3", "4", "2"] ∧
    (MockPlayer.moveQueueItem c3Player [1] 3).queue.map QueuedTrackInfo.song
      = ["2", "1", "3", "4"] := by
  constructor
  · have h := (c3_move_queue_amended c3Player [3, 4] 2 (by decide) (by decide)
      (by decide)).2.2 (by decide)
    rw [h]
    decide
  · have h := (c3_move_queue_amended c3Player [1] 3 (by decide) (by decide)
      (by decide)).1
    rw [h]
    decide

theorem assocGet_assocSet_self {α β : Type} [BEq α] [LawfulBEq α]
    (l : List (α × β)) (k : α) (v : β) :
    assocGet (assocSet l k v) k = some v := by
  induction l with
  | nil =>
    simp [assocSet, assocGet]
  | cons p ps ih =>
    unfold assocSet
    cases hp : p.1 == k with
    | true =>
      simp only [if_true]
      simp [assocGet]
    | false =>
      simp only [Bool.false_eq_true, if_false]
      unfold assocGet
      rw [List.find?_cons_of_neg _ (by simp [hp])]
      exact ih

theorem assocGet_assocSet_ne {α β : Type} [BEq α] [LawfulBEq α]
    (l : List (α × β)) (k : α) (v : β) (k2 : α) (h : ¬ k = k2) :
    assocGet (assocSet l k v) k2 = assocGet l k2 := by
  have hb : (k == k2) = false := beq_eq_false_iff_ne.mpr h
  induction l with
  | nil =>
    simp [assocSet, assocGet, hb]
  | cons p ps ih =>
    unfold assocSet
    cases hp : p.1 == k with
    | true =>
      have hp2 : (p.1 == k2) = false := by
        have : p.1 = k := eq_of_beq hp
        rw [this]
        exact hb
      simp only [if_true]
      unfold assocGet
      rw [List.find?_cons_of_neg _ (by simp [hb]),
        List.find?_cons_of_neg _ (by simp [hp2])]
    | false =>
      simp only [Bool.false_eq_true, if_false]
      unfold assocGet
      cases hp2 : p.1 == k2 with
      | true =>
        rw [List.find?_cons_of_pos _ (by simp [hp2]),
          List.find?_cons_of_pos _ (by simp [hp2])]
      | false =>
        rw [List.find?_cons_of_neg _ (by simp [hp2]),
          List.find?_cons_of_neg _ (by simp [hp2])]
        exact ih

theorem mem_assocSet {α β : Type} [BEq α] (l : List (α × β)) (k : α) (v : β)
    (p : α × β) (h : p ∈ assocSet l k v) : p = (k, v) ∨ p ∈ l := by
  induction l with
  | nil =>
    simp [assocSet] at h
    exact Or.inl h
  | cons q qs ih =>
    unfold assocSet at h
    by_cases hq : (q.1 == k) = true
    · rw [if_pos hq] at h
      rcases List.mem_cons.mp h with h1 | h1
      · exact Or.inl h1
      · exact Or.inr (List.mem_cons_of_mem _ h1)
    · rw [if_neg hq] at h
      rcases List.mem_cons.mp h with h1 | h1
      · exact Or.inr (h1 ▸ List.mem_cons_self _ _)
      · rcases ih h1 with h2 | h2
        · exact Or.inl h2
        · exact Or.inr (List.mem_cons_of_mem _ h2)

theorem assocSet_cons_pos {α β : Type} [BEq α] (p : α × β) (ps : List (α × β))
    (k : α) (v : β) (h : (p.1 == k) = true) :
    assocSet (p :: ps) k v = (k, v) :: ps := by
  show (if (p.1 == k) = true then (k, v) :: ps else p :: assocSet ps k v)
      = (k, v) :: ps
  rw [if_pos h]

theorem assocSet_cons_neg {α β : Type} [BEq α] (p : α × β) (ps : List (α × β))
    (k : α) (v : β) (h : (p.1 == k) = false) :
    assocSet (p :: ps) k v = p :: assocSet ps k v := by
  show (if (p.1 == k) = true then (k, v) :: ps else p :: assocSet ps k v)
      = p :: assocSet ps k v
  rw [if_neg (by simp [h])]

theorem assocSet_assocSet {α β : Type} [BEq α] [LawfulBEq α]
    (l : List (α × β)) (k : α) (v v2 : β) :
    assocSet (assocSet l k v) k v2 = assocSet l k v2 := by
  induction l with
  | nil =>
    show assocSet [(k, v)] k v2 = [(k, v2)]
    rw [assocSet_cons_pos _ _ _ _ (by simp)]
  | cons p ps ih =>
    cases hp : p.1 == k with
    | true =>
      rw [assocSet_cons_pos _ _ _ _ hp, assocSet_cons_pos _ _ _ _ (by simp),
        assocSet_cons_pos _ _ _ _ hp]
    | false =>
      rw [assocSet_cons_neg _ _ _ _ hp, assocSet_cons_neg _ _ _ _ hp, ih,
        assocSet_cons_neg _ _ _ _ hp]

theorem getCache_setCaller (s : ChannelModel) (i : Nat) (ph : CallerPhase)
    (name : String) : (s.setCaller i ph).getCache name = s.getCache name := rfl

theorem getCaller_setCache (s : ChannelModel) (name : String) (c : ResponseCache)
    (i : Nat) : (s.setCache name c).getCaller i = s.getCaller i := rfl

theorem getCache_setCache_self (s : ChannelModel) (name : String)
    (c : ResponseCache) : (s.setCache name c).getCache name = some c :=
  assocGet_assocSet_self _ _ _

theorem getCache_setCache_ne (s : ChannelModel) (name : String)
    (c : ResponseCache) (name2 : String) (h : ¬ name = name2) :
    (s.setCache name c).getCache name2 = s.getCache name2 :=
  assocGet_assocSet_ne _ _ _ _ h

theorem getCaller_setCaller_self (s : ChannelModel) (i : Nat) (ph : CallerPhase) :
    (s.setCaller i ph).getCaller i = some ph :=
  assocGet_assocSet_self _ _ _

theorem getCaller_setCaller_ne (s : ChannelModel) (i : Nat) (ph : CallerPhase)
    (j : Nat) (h : ¬ i = j) : (s.setCaller i ph).getCaller j = s.getCaller j :=
  assocGet_assocSet_ne _ _ _ _ h

theorem getCacheD_clean (s : ChannelModel) (name : String) (h : AllClean s) :
    (s.getCache name).getD ResponseCache.empty = ResponseCache.empty := by
  cases hc : s.getCache name with
  | none => rfl
  | some c =>
    unfold ChannelModel.getCache assocGet at hc
    cases hf : s.caches.find? (fun p => p.1 == name) with
    | none => rw [hf] at hc; cases hc
    | some p =>
      rw [hf] at hc
      cases hc
      have hp := List.mem_of_find?_eq_some hf
      exact h p hp

theorem step_send_clean (s : ChannelModel) (name : String) (i : Nat)
    (hs : AllClean s) :
    ChannelModel.step s (.send name i)
      = (s.setCache name ⟨some i, [(i, none)], some i⟩).setCaller i .awaitingImmediate := by
  simp only [ChannelModel.step]
  rw [getCacheD_clean s name hs]
  rfl

theorem step_delayAck_at (s : ChannelModel) (name : String) (i : Nat)
    (hc : s.getCache name = some ⟨some i, [(i, none)], some i⟩) :
    ChannelModel.step s (.delayAck name)
      = (s.setCache name ⟨none, [(i, none)], some i⟩).setCaller i .awaitingSlot := by
  simp only [ChannelModel.step]
  rw [hc]

theorem step_reply_current (s : ChannelModel) (name : String) (i rid : Nat)
    (hc : s.getCache name = some ⟨some i, [(i, none)], some i⟩) :
    ChannelModel.step s (.reply name (some i) rid)
      = (s.setCache name ResponseCache.empty).setCaller i (.done (some rid)) := by
  simp only [ChannelModel.step]
  rw [hc]
  simp only [List.filter_cons, beq_self_eq_true, Bool.not_true, Bool.false_eq_true,
    if_false, List.filter_nil, Option.some.injEq]
  rfl

theorem step_reply_slot (s : ChannelModel) (name : String) (i rid : Nat)
    (hc : s.getCache name = some ⟨none, [(i, none)], some i⟩)
    (hcall : s.getCaller i = some .awaitingSlot) :
    ChannelModel.step s (.reply name (some i) rid)
      = (s.setCache name ResponseCache.empty).setCaller i (.done (some rid)) := by
  simp only [ChannelModel.step]
  rw [hc, hcall]
  simp [ResponseCache.empty, List.filter_cons]

theorem caches_setCaller (s : ChannelModel) (i : Nat) (ph : CallerPhase) :
    (s.setCaller i ph).caches = s.caches := rfl

theorem caches_setCache (s : ChannelModel) (name : String) (c : ResponseCache) :
    (s.setCache name c).caches = assocSet s.caches name c := rfl

theorem allClean_assocSet_empty (l : List (String × ResponseCache))
    (h : ∀ p ∈ l, p.2 = ResponseCache.empty) (name : String) :
    ∀ p ∈ assocSet l name ResponseCache.empty, p.2 = ResponseCache.empty := by
  intro p hp
  rcases mem_assocSet l name ResponseCache.empty p hp with h1 | h1
  · rw [h1]
  · exact h p h1

theorem runBlock (s : ChannelModel) (name : String) (i rid : Nat) (d : Bool)
    (hs : AllClean s) :
    AllClean (runFrom s (callBlock name i rid d)) ∧
    (runFrom s (callBlock name i rid d)).getCaller i = some (.done (some rid)) ∧
    (∀ j, ¬ i = j →
      (runFrom s (callBlock name i rid d)).getCaller j = s.getCaller j) := by
  cases d with
  | false =>
    have hsend := step_send_clean s name i hs
    have hc1 : (ChannelModel.step s (.send name i)).getCache name
        = some ⟨some i, [(i, none)], some i⟩ := by
      rw [hsend, getCache_setCaller, getCache_setCache_self]
    have hrep := step_reply_current _ name i rid hc1
    have hfinal : runFrom s (callBlock name i rid false)
        = (((ChannelModel.step s (.send name i)).setCache name
            ResponseCache.empty).setCaller i (.done (some rid))) := by
      show ChannelModel.step (ChannelModel.step s (.send name i))
          (.reply name (some i) rid) = _
      rw [hrep]
    refine ⟨?_, ?_, ?_⟩
    · intro p hp
      rw [hfinal, caches_setCaller, caches_setCache, hsend, caches_setCaller,
        caches_setCache, assocSet_assocSet] at hp
      exact allClean_assocSet_empty s.caches hs name p hp
    · rw [hfinal, getCaller_setCaller_self]
    · intro j hj
      rw [hfinal, getCaller_setCaller_ne _ _ _ _ hj, getCaller_setCache, hsend,
        getCaller_setCaller_ne _ _ _ _ hj, getCaller_setCache]
  | true =>
    have hsend := step_send_clean s name i hs
    have hc1 : (ChannelModel.step s (.send name i)).getCache name
        = some ⟨some i, [(i, none)], some i⟩ := by
      rw [hsend, getCache_setCaller, getCache_setCache_self]
    have hack := step_delayAck_at _ name i hc1
    have hc2 : (ChannelModel.step (ChannelModel.step s (.send name i))
        (.delayAck name)).getCache name = some ⟨none, [(i, none)], some i⟩ := by
      rw [hack, getCache_setCaller, getCache_setCache_self]
    have hcall2 : (ChannelModel.step (ChannelModel.step s (.send name i))
        (.delayAck name)).getCaller i = some .awaitingSlot := by
      rw [hack, getCaller_setCaller_self]
    have hrep := step_reply_slot _ name i rid hc2 hcall2
    have hfinal : runFrom s (callBlock name i rid true)
        = (((ChannelModel.step (ChannelModel.step s (.send name i))
            (.delayAck name)).setCache name
            ResponseCache.empty).setCaller i (.done (some rid))) := by
      show ChannelModel.step (ChannelModel.step (ChannelModel.step s
          (.send name i)) (.delayAck name)) (.reply name (some i) rid) = _
      rw [hrep]
    refine ⟨?_, ?_, ?_⟩
    · intro p hp
      rw [hfinal, caches_setCaller, caches_setCache, hack, caches_setCaller,
        caches_setCache, hsend, caches_setCaller, caches_setCache,
        assocSet_assocSet, assocSet_assocSet] at hp
      exact allClean_assocSet_empty s.caches hs name p hp
    · rw [hfinal, getCaller_setCaller_self]
    · intro j hj
      rw [hfinal, getCaller_setCaller_ne _ _ _ _ hj, getCaller_setCache, hack,
        getCaller_setCaller_ne _ _ _ _ hj, getCaller_setCache, hsend,
        getCaller_setCaller_ne _ _ _ _ hj, getCaller_setCache]

theorem runFrom_append (s : ChannelModel) (tr1 tr2 : List ChanEvent) :
    runFrom s (tr1 ++ tr2) = runFrom (runFrom s tr1) tr2 :=
  List.foldl_append _ _ _ _

theorem serialized_untouched (calls : List (String × Nat × Nat × Bool)) :
    ∀ (s : ChannelModel), AllClean s →
      ∀ j, j ∉ calls.map (fun c => c.2.1) →
        (runFrom s (serializedTrace calls)).getCaller j = s.getCaller j := by
  induction calls with
  | nil => intro s _ j _; rfl
  | cons hd tl ih =>
    intro s hs j hj
    obtain ⟨name, i, rid, d⟩ := hd
    rw [show serializedTrace ((name, i, rid, d) :: tl)
        = callBlock name i rid d ++ serializedTrace tl from rfl, runFrom_append]
    have hblock := runBlock s name i rid d hs
    have hji : ¬ i = j := by
      intro h
      exact hj (by simp [← h])
    have hjtl : j ∉ tl.map (fun c => c.2.1) := by
      intro h
      exact hj (by simp [h])
    rw [ih (runFrom s (callBlock name i rid d)) hblock.1 j hjtl,
      hblock.2.2 j hji]

theorem serialized_correct (calls : List (String × Nat × Nat × Bool)) :
    ∀ (s : ChannelModel), AllClean s →
      (calls.map (fun c => c.2.1)).Nodup →
      ∀ c ∈ calls,
        (runFrom s (serializedTrace calls)).getCaller c.2.1
          = some (.done (some c.2.2.1)) := by
  induction calls with
  | nil => intro s _ _ c hc; cases hc
  | cons hd tl ih =>
    intro s hs hnd c hc
    obtain ⟨name, i, rid, d⟩ := hd
    rw [show serializedTrace ((name, i, rid, d) :: tl)
        = callBlock name i rid d ++ serializedTrace tl from rfl, runFrom_append]
    have hblock := runBlock s name i rid d hs
    rw [List.map_cons, List.nodup_cons] at hnd
    rcases List.mem_cons.mp hc with hceq | hctl
    · subst hceq
      rw [serialized_untouched tl _ hblock.1 i hnd.1]
      exact hblock.2.1
    · exact ih _ hblock.1 hnd.2 c hctl

/-- C1 counterexample: caller 0 sends, receives a delay acknowledgement and
awaits its delayed slot; caller 1 then sends the same command. When caller 0's
final reply (frame 100, SEQUENCE 0) arrives, a pending immediate one-shot
receiver exists — caller 1's — and `handle_response` signals it without
checking SEQUENCE, so caller 1 completes with frame 100 instead of its own
reply 101 (whose later arrival finds no slot and is dropped), and caller 0
never completes. -/
theorem c1_counterexample :
    (ChannelModel.run c1Trace).getCaller 1 = some (.done (some 100)) ∧
    ¬ (ChannelModel.run c1Trace).getCaller 1 = some (.done (some 101)) ∧
    (ChannelModel.run c1Trace).getCaller 0 = some .awaitingSlot := by
  decide

/-- C1 amended: the per-caller SEQUENCE correlation holds for serialized
calls — each `send_raw_command` call's events (send, optional delay
acknowledgement, final reply reflecting the injected sequence) complete before
the next call starts, which is how the library drives the channel (sends are
serialized behind a mutex held for the whole call). With overlapping calls on
the same command name an earlier caller's final reply can be captured by a
later caller's pending immediate receiver (see the counterexample), so the
unrestricted claim fails. -/
theorem c1_sequence_correlation_amended
    (calls : List (String × Nat × Nat × Bool))
    (hnd : (calls.map (fun c => c.2.1)).Nodup) :
    ∀ c ∈ calls,
      (ChannelModel.run (serializedTrace calls)).getCaller c.2.1
        = some (.done (some c.2.2.1)) := by
  intro c hc
  exact serialized_correct calls ChannelModel.init
    (by intro p hp; cases hp) hnd c hc

/-- Witness for C1 at two concrete serialized calls. -/
theorem c1_witness :
    (ChannelModel.run (serializedTrace c1Calls)).getCaller 0
      = some (.done (some 100)) :=
  c1_sequence_correlation_amended c1Calls (by decide)
    ("player/get_volume", 0, 100, true) (by decide)

/-- C6: when the first frame matched to a pending command is a
"command under process" delay acknowledgement and a later frame is the final
reply with the matching SEQUENCE, the caller's future completes with the
final reply — the acknowledgement only reroutes the caller from the one-shot
receiver to the delayed slot and is never itself returned. -/
theorem c6_delay_then_final (name : String) (i rid : Nat) :
    (ChannelModel.run
        [.send name i, .delayAck name, .reply name (some i) rid]).getCaller i
      = some (.done (some rid)) := by
  have h := runBlock ChannelModel.init name i rid true (by intro p hp; cases hp)
  exact h.2.1

theorem lastDelayed_preserved_setCache (S : ChannelModel) (n name : String)
    (cNew : ResponseCache) (c2 : ResponseCache) (l : Nat)
    (h : (S.setCache n cNew).getCache name = some c2) (hl : c2.lastDelayed = some l)
    (hnew : cNew.lastDelayed = some l → ∃ c, S.getCache n = some c ∧ c.lastDelayed = some l) :
    ∃ c, S.getCache name = some c ∧ c.lastDelayed = some l := by
  by_cases hn : n = name
  · subst hn
    rw [getCache_setCache_self] at h
    cases h
    exact hnew hl
  · rw [getCache_setCache_ne _ _ _ _ hn] at h
    exact ⟨c2, h, hl⟩

theorem step_lastDelayed (S : ChannelModel) (e : ChanEvent) (name : String)
    (c2 : ResponseCache) (l : Nat)
    (h : (S.step e).getCache name = some c2) (hl : c2.lastDelayed = some l) :
    e = .send name l ∨
    ((∀ i, ¬ e = .send name i) ∧
     ∃ c, S.getCache name = some c ∧ c.lastDelayed = some l) := by
  cases e with
  | send n i =>
    by_cases hn : n = name
    · subst hn
      left
      simp only [ChannelModel.step] at h
      rw [getCache_setCaller, getCache_setCache_self] at h
      cases h
      simp only at hl
      cases hl
      rfl
    · right
      refine ⟨?_, ?_⟩
      · intro i2 he
        injection he with h1 h2
        exact hn h1
      · simp only [ChannelModel.step] at h
        rw [getCache_setCaller, getCache_setCache_ne _ _ _ _ hn] at h
        cases hcur : ((S.getCache n).getD ResponseCache.empty).current with
        | none =>
          simp only [hcur] at h
          exact ⟨c2, h, hl⟩
        | some j =>
          simp only [hcur, getCache_setCaller] at h
          exact ⟨c2, h, hl⟩
  | delayAck n =>
    right
    refine ⟨(by intro i he; cases he), ?_⟩
    simp only [ChannelModel.step] at h
    cases hg : S.getCache n with
    | none =>
      simp only [hg] at h
      exact ⟨c2, h, hl⟩
    | some c0 =>
      simp only [hg] at h
      cases hcur : c0.current with
      | none =>
        simp only [hcur] at h
        exact ⟨c2, h, hl⟩
      | some j =>
        simp only [hcur, getCache_setCaller] at h
        refine lastDelayed_preserved_setCache S n name _ c2 l h hl ?_
        intro hln
        exact ⟨c0, hg, hln⟩
  | reply n seq rid =>
    right
    refine ⟨(by intro i he; cases he), ?_⟩
    cases seq with
    | some m =>
      simp only [ChannelModel.step] at h
      cases hg : S.getCache n with
      | none =>
        simp only [hg] at h
        exact ⟨c2, h, hl⟩
      | some c0 =>
        simp only [hg] at h
        cases hcur : c0.current with
        | some j =>
          simp only [hcur, getCache_setCaller] at h
          refine lastDelayed_preserved_setCache S n name _ c2 l h hl ?_
          intro hln
          simp only at hln
          cases hld : (c0.lastDelayed == some j) with
          | true =>
            rw [if_pos hld] at hln
            cases hln
          | false =>
            rw [if_neg (by simp [hld])] at hln
            exact ⟨c0, hg, hln⟩
        | none =>
          simp only [hcur] at h
          by_cases hf : (c0.delayed.find? (fun p => p.1 == m)).isSome = true
          · rw [if_pos hf] at h
            have h2 : (S.setCache n
                ⟨none, c0.delayed.filter (fun p => ! (p.1 == m)),
                 if (c0.lastDelayed == some m) = true then none
                 else c0.lastDelayed⟩).getCache name = some c2 := by
              rcases hgc : S.getCaller m with _ | ph
              · simpa only [hgc] using h
              · cases ph with
                | awaitingImmediate => simpa only [hgc] using h
                | awaitingSlot => simpa only [hgc, getCache_setCaller] using h
                | done rid2 => simpa only [hgc] using h
            refine lastDelayed_preserved_setCache S n name _ c2 l h2 hl ?_
            intro hln
            simp only at hln
            cases hld : (c0.lastDelayed == some m) with
            | true =>
              rw [if_pos hld] at hln
              cases hln
            | false =>
              rw [if_neg (by simp [hld])] at hln
              exact ⟨c0, hg, hln⟩
          · rw [if_neg hf] at h
            exact ⟨c2, h, hl⟩
    | none =>
      simp only [ChannelModel.step] at h
      cases hg : S.getCache n with
      | none =>
        simp only [hg] at h
        exact ⟨c2, h, hl⟩
      | some c0 =>
        simp only [hg] at h
        cases hcur : c0.current with
        | some j =>
          simp only [hcur, getCache_setCaller] at h
          refine lastDelayed_preserved_setCache S n name _ c2 l h hl ?_
          intro hln
          simp only at hln
          cases hld : (c0.lastDelayed == some j) with
          | true =>
            rw [if_pos hld] at hln
            cases hln
          | false =>
            rw [if_neg (by simp [hld])] at hln
            exact ⟨c0, hg, hln⟩
        | none =>
          simp only [hcur] at h
          cases hld : c0.lastDelayed with
          | none =>
            simp only [hld] at h
            exact ⟨c2, h, hl⟩
          | some l2 =>
            simp only [hld] at h
            have h2 : (S.setCache n
                ⟨none, c0.delayed.filter (fun p => ! (p.1 == l2)),
                 none⟩).getCache name = some c2 := by
              rcases hgc : S.getCaller l2 with _ | ph
              · simpa only [hgc] using h
              · cases ph with
                | awaitingImmediate => simpa only [hgc] using h
                | awaitingSlot => simpa only [hgc, getCache_setCaller] using h
                | done rid2 => simpa only [hgc] using h
            refine lastDelayed_preserved_setCache S n name _ c2 l h2 hl ?_
            intro hln
            cases hln

theorem lastSent_append_send (tr : List ChanEvent) (name : String) (i : Nat) :
    lastSent (tr ++ [.send name i]) name = some i := by
  simp [lastSent, List.foldl_append]

theorem lastSent_append_ne (tr : List ChanEvent) (e : ChanEvent) (name : String)
    (h : ∀ i, ¬ e = .send name i) :
    lastSent (tr ++ [e]) name = lastSent tr name := by
  cases e with
  | send n i =>
    have hn : ¬ n = name := by
      intro hn2
      exact h i (by rw [hn2])
    simp [lastSent, List.foldl_append, hn]
  | delayAck n => simp [lastSent, List.foldl_append]
  | reply n seq rid => simp [lastSent, List.foldl_append]

theorem run_append_singleton (tr : List ChanEvent) (e : ChanEvent) :
    ChannelModel.run (tr ++ [e]) = (ChannelModel.run tr).step e := by
  simp [ChannelModel.run, List.foldl_append]

theorem lastDelayed_lastSent (tr : List ChanEvent) :
    ∀ (name : String) (c : ResponseCache) (l : Nat),
      (ChannelModel.run tr).getCache name = some c → c.lastDelayed = some l →
      lastSent tr name = some l := by
  induction tr using List.reverseRecOn with
  | nil =>
    intro name c l hc _
    simp [ChannelModel.run, ChannelModel.init, ChannelModel.getCache, assocGet] at hc
  | append_singleton tr e ih =>
    intro name c l hc hl
    rw [run_append_singleton] at hc
    rcases step_lastDelayed (ChannelModel.run tr) e name c l hc hl with he | ⟨hne, c0, hg0, hl0⟩
    · subst he
      exact lastSent_append_send tr name l
    · rw [lastSent_append_ne tr e name hne]
      exact ih name c0 l hg0 hl0

/-- C7: a final reply without a SEQUENCE parameter, arriving when no
immediate-reply sender is pending for its command name, is delivered to the
delayed slot named by the `last_delayed` pointer, and that slot is removed
(from the delayed map, with the pointer cleared); moreover, whenever
`last_delayed` is set it names the most recently sent command of that name. -/
theorem c7_missing_sequence_fallback :
    (∀ (s : ChannelModel) (name : String) (l rid : Nat)
        (del : List (Nat × Option Nat)),
      s.getCache name = some ⟨none, del, some l⟩ →
      s.getCaller l = some .awaitingSlot →
      (s.step (.reply name none rid)).getCaller l = some (.done (some rid)) ∧
      (s.step (.reply name none rid)).getCache name
        = some ⟨none, del.filter (fun p => ! (p.1 == l)), none⟩) ∧
    (∀ (tr : List ChanEvent) (name : String) (c : ResponseCache) (l : Nat),
      (ChannelModel.run tr).getCache name = some c → c.lastDelayed = some l →
      lastSent tr name = some l) := by
  constructor
  · intro s name l rid del hc hcall
    simp only [ChannelModel.step, hc, hcall]
    constructor
    · rw [getCaller_setCaller_self]
    · rw [getCache_setCaller, getCache_setCache_self]
  · intro tr name c l hc hl
    exact lastDelayed_lastSent tr name c l hc hl

/-- Witness for C7 at a concrete channel state with one delayed command. -/
theorem c7_witness :
    (c7State.step (.reply "player/get_queue" none 55)).getCaller 0
      = some (.done (some 55)) ∧
    lastSent [.send "player/get_queue" 0, .delayAck "player/get_queue"]
      "player/get_queue" = some 0 :=
  ⟨(c7_missing_sequence_fallback.1 c7State "player/get_queue" 0 55 [(0, none)]
      (by decide) (by decide)).1,
   c7_missing_sequence_fallback.2
     [.send "player/get_queue" 0, .delayAck "player/get_queue"]
     "player/get_queue" ⟨none, [(0, none)], some 0⟩ 0 (by decide) (by decide)⟩

theorem interp_le_duration (st : ProgressState) (h : st.elapsed ≤ st.duration)
    (t : Nat) : interpolatedElapsed st t ≤ st.duration := by
  unfold interpolatedElapsed
  cases st.baseline with
  | none => exact h
  | some b => exact Nat.min_le_right _ _

theorem applyEvent_invariant (st : ProgressState) (e : ProgressEvent)
    (h : st.elapsed ≤ st.duration) (hg : goodProgressEvent e) :
    (st.applyEvent e).elapsed ≤ (st.applyEvent e).duration := by
  cases e with
  | playStateChange s now =>
    cases s with
    | play => exact h
    | pause => exact interp_le_duration st h now
    | stop => exact interp_le_duration st h now
  | nowPlayingChange now => exact Nat.le_refl 0
  | progress e d now => exact hg

theorem foldl_progress_invariant :
    ∀ (evs : List ProgressEvent) (st : ProgressState),
      st.elapsed ≤ st.duration → (∀ e ∈ evs, goodProgressEvent e) →
      (evs.foldl ProgressState.applyEvent st).elapsed
        ≤ (evs.foldl ProgressState.applyEvent st).duration := by
  intro evs
  induction evs with
  | nil => intro st h _; exact h
  | cons e rest ih =>
    intro st h hg
    exact ih _ (applyEvent_invariant st e h (hg e (by simp)))
      (fun e2 he => hg e2 (by simp [he]))

/-- C8 counterexample: a progress event reporting elapsed 300 s of a 200 s
track while the player is stopped is stored verbatim
(`update_now_playing_progress` copies the event fields and, with the play
state not `Play`, leaves the baseline unset), so `interpolated_elapsed`
returns the raw 300 s, exceeding the stored duration. -/
theorem c8_counterexample :
    (ProgressState.runEvents .stop [.progress 300000 200000 0]).duration = 200000 ∧
    interpolatedElapsed
      (ProgressState.runEvents .stop [.progress 300000 200000 0]) 0 = 300000 ∧
    ¬ interpolatedElapsed
        (ProgressState.runEvents .stop [.progress 300000 200000 0]) 0
      ≤ (ProgressState.runEvents .stop [.progress 300000 200000 0]).duration := by
  decide

/-- C8 amended: provided every progress event reports an elapsed time that is
at most its reported duration, `interpolated_elapsed` is at most the stored
duration at every reachable state; and (unconditionally) a pause or stop
state change clears the baseline and freezes the elapsed value, so
`interpolated_elapsed` stops advancing — it returns the stored elapsed value
at every later instant. -/
theorem c8_progress_amended (s0 : PlayState) (evs : List ProgressEvent)
    (hg : ∀ e ∈ evs, goodProgressEvent e) :
    (∀ t, interpolatedElapsed (ProgressState.runEvents s0 evs) t
        ≤ (ProgressState.runEvents s0 evs).duration) ∧
    (∀ s now, s = PlayState.pause ∨ s = PlayState.stop →
      ((ProgressState.runEvents s0 evs).applyEvent
          (.playStateChange s now)).baseline = none ∧
      ∀ t, interpolatedElapsed
          ((ProgressState.runEvents s0 evs).applyEvent (.playStateChange s now)) t
        = ((ProgressState.runEvents s0 evs).applyEvent
            (.playStateChange s now)).elapsed) := by
  have hinv := foldl_progress_invariant evs (ProgressState.init s0)
    (Nat.le_refl 0) hg
  constructor
  · intro t
    exact interp_le_duration _ hinv t
  · intro s now hs
    rcases hs with h | h <;> subst h <;> exact ⟨rfl, fun t => rfl⟩

/-- Witness for C8 at the specification's scenario 6 inputs. -/
theorem c8_witness :
    interpolatedElapsed (ProgressState.runEvents .stop c8Events) 3000
      ≤ (ProgressState.runEvents .stop c8Events).duration ∧
    ((ProgressState.runEvents .stop c8Events).applyEvent
        (.playStateChange .pause 5000)).baseline = none := by
  have hg : ∀ e ∈ c8Events, goodProgressEvent e := by
    intro e he
    simp only [c8Events, List.mem_cons, List.not_mem_nil, or_false] at he
    rcases he with h | h <;> subst h
    · trivial
    · show (30000 : Nat) ≤ 200000
      norm_num
  exact ⟨(c8_progress_amended .stop c8Events hg).1 3000,
    ((c8_progress_amended .stop c8Events hg).2 .pause 5000 (Or.inl rfl)).1⟩

/-- C9: the mock `player/volume_up`, `player/volume_down`, `group/volume_up`
and `group/volume_down` handlers return a success response while leaving the
whole mock system state unchanged: the `saturating_add`/`saturating_sub`
result is computed and discarded, never assigned back. -/
theorem c9_volume_handlers_noop :
    (∀ (sys : MockHeosSystem) (pid : Int) (step? : Option Nat),
      (mockPlayerVolumeUp sys pid step?).2 = sys ∧
      (mockPlayerVolumeDown sys pid step?).2 = sys ∧
      (mockGroupVolumeUp sys pid step?).2 = sys ∧
      (mockGroupVolumeDown sys pid step?).2 = sys) ∧
    (∀ (sys : MockHeosSystem) (pid : Int) (step? : Option Nat)
        (pl : MockPlayer) (v : VolumeStep),
      findPlayer sys pid = some pl → parseVolumeStep step? = .ok v →
      (mockPlayerVolumeUp sys pid step?).1 = .success ∧
      (mockPlayerVolumeDown sys pid step?).1 = .success) ∧
    (∀ (sys : MockHeosSystem) (gid : Int) (step? : Option Nat)
        (g : MockGroup) (v : VolumeStep),
      findGroup sys gid = some g → parseVolumeStep step? = .ok v →
      (mockGroupVolumeUp sys gid step?).1 = .success ∧
      (mockGroupVolumeDown sys gid step?).1 = .success) := by
  refine ⟨?_, ?_, ?_⟩
  · intro sys pid step?
    refine ⟨?_, ?_, ?_, ?_⟩
    · unfold mockPlayerVolumeUp
      cases findPlayer sys pid with
      | none => rfl
      | some pl =>
        cases parseVolumeStep step? with
        | error e => rfl
        | ok v => rfl
    · unfold mockPlayerVolumeDown
      cases findPlayer sys pid with
      | none => rfl
      | some pl =>
        cases parseVolumeStep step? with
        | error e => rfl
        | ok v => rfl
    · unfold mockGroupVolumeUp
      cases findGroup sys pid with
      | none => rfl
      | some g =>
        cases parseVolumeStep step? with
        | error e => rfl
        | ok v => rfl
    · unfold mockGroupVolumeDown
      cases findGroup sys pid with
      | none => rfl
      | some g =>
        cases parseVolumeStep step? with
        | error e => rfl
        | ok v => rfl
  · intro sys pid step? pl v hf hp
    constructor
    · unfold mockPlayerVolumeUp
      simp only [hf, hp]
    · unfold mockPlayerVolumeDown
      simp only [hf, hp]
  · intro sys gid step? g v hf hp
    constructor
    · unfold mockGroupVolumeUp
      simp only [hf, hp]
    · unfold mockGroupVolumeDown
      simp only [hf, hp]

/-- Witness for C9 at a concrete system, player and step. -/
theorem c9_witness :
    (mockPlayerVolumeUp c4Sys 42 (some 5)).2 = c4Sys ∧
    (mockPlayerVolumeUp c4Sys 42 (some 5)).1 = .success :=
  ⟨((c9_volume_handlers_noop.1 c4Sys 42 (some 5)).1),
   (c9_volume_handlers_noop.2.1 c4Sys 42 (some 5) c4P42 ⟨5⟩
      (by decide) rfl).1⟩

/-- C10: with an explicit quickselect id `k` (valid range `1..=6`), the mock
`player/get_quickselects` handler indexes the 6-element quickselect array at
position `k` rather than `k-1`: for `k` in `1..=5` it returns the slot stored
at index `k` (the `(k+1)`-th slot), and for the valid input `k=6` the index is
out of bounds, so the handler panics. -/
theorem c10_quickselect_index (sys : MockHeosSystem) (pid : Int)
    (player : MockPlayer) (hf : findPlayer sys pid = some player)
    (hlen : player.quickselects.length = 6) :
    (∀ (k : Int), 1 ≤ k → k ≤ 5 → ∀ q, player.quickselects.get? k.toNat = some q →
      mockGetQuickselects sys pid (some k) = .payload [q]) ∧
    mockGetQuickselects sys pid (some 6) = .panicked := by
  constructor
  · intro k h1 h5 q hq
    unfold mockGetQuickselects
    simp only [hf]
    rw [if_pos ⟨by omega, h1⟩]
    simp only [hq]
  · unfold mockGetQuickselects
    simp only [hf]
    rw [if_pos ⟨by norm_num, by norm_num⟩]
    have h6 : player.quickselects.get? (6 : Int).toNat = none := by
      rw [show ((6 : Int).toNat) = 6 from rfl]
      exact List.get?_eq_none.mpr (by omega)
    simp only [h6]

/-- Witness for C10: with the default quickselect slots, requesting id 3
returns the slot named "QuickSelect4" (stored at index 3), and requesting the
valid id 6 panics. -/
theorem c10_witness :
    mockGetQuickselects c4Sys 42 (some 3) = .payload [⟨4, "QuickSelect4"⟩] ∧
    mockGetQuickselects c4Sys 42 (some 6) = .panicked :=
  ⟨(c10_quickselect_index c4Sys 42 c4P42 (by decide) (by decide)).1 3
      (by norm_num) (by norm_num) ⟨4, "QuickSelect4"⟩ (by decide),
   (c10_quickselect_index c4Sys 42 c4P42 (by decide) (by decide)).2⟩

theorem dedupAux_self :
    ∀ (l seen : List Int), l.Nodup → (∀ x ∈ l, x ∉ seen) →
      dedupAux seen l = l := by
  intro l
  induction l with
  | nil => intro seen _ _; rfl
  | cons x xs ih =>
    intro seen hnd hs
    obtain ⟨hx, hnd2⟩ := List.nodup_cons.mp hnd
    unfold dedupAux
    rw [if_neg (by simp [hs x (List.mem_cons_self x xs)])]
    rw [ih (x :: seen) hnd2 ?_]
    intro y hy
    rw [List.mem_cons]
    rintro (h1 | h1)
    · exact hx (h1 ▸ hy)
    · exact hs y (List.mem_cons_of_mem x hy) h1

/-- C4: the mock `group/set_group` handler follows the claimed protocol. A
one-element list deletes the group its id leads when one exists and otherwise
fails with an invalid-id error; a longer list replaces the membership (and
name) of the leader's existing group with the full list when the leader
already leads one, and otherwise creates a new group whose id equals the
leader's player id and whose name is the "+"-joined member names, with the
success response carrying the group id and name in both cases. The member ids
are collected through a hash set, so duplicates are dropped; on a
duplicate-free list the membership is exactly the requested list. -/
theorem c4_set_group (sys : MockHeosSystem) :
    (∀ (pid gid : Int), findLeaderGid sys.groups pid = some gid →
      setGroup sys [pid] =
        (.successDeleted, { sys with groups := removeGroup sys.groups gid })) ∧
    (∀ pid : Int, findLeaderGid sys.groups pid = none →
      setGroup sys [pid] = (.errInvalidId (toString pid), sys)) ∧
    (∀ (leaderId : Int) (rest : List Int) (leaderPl : MockPlayer)
        (members : List GroupPlayer) (gid : Int), rest ≠ [] →
      findPlayer sys leaderId = some leaderPl →
      mkMembers sys (hashSetOf rest) = .ok members →
      findLeaderGid sys.groups leaderId = some gid →
      setGroup sys (leaderId :: rest) =
        (.successGroup gid (joinNames (mkLeaderEntry leaderPl leaderId :: members)),
         { sys with
           groups := updateGroup sys.groups gid
                       (joinNames (mkLeaderEntry leaderPl leaderId :: members))
                       (mkLeaderEntry leaderPl leaderId :: members) })) ∧
    (∀ (leaderId : Int) (rest : List Int) (leaderPl : MockPlayer)
        (members : List GroupPlayer), rest ≠ [] →
      findPlayer sys leaderId = some leaderPl →
      mkMembers sys (hashSetOf rest) = .ok members →
      findLeaderGid sys.groups leaderId = none →
      setGroup sys (leaderId :: rest) =
        (.successGroup leaderId
           (joinNames (mkLeaderEntry leaderPl leaderId :: members)),
         { sys with
           groups := insertGroup sys.groups
                       { info := { name := joinNames
                                     (mkLeaderEntry leaderPl leaderId :: members),
                                   groupId := leaderId,
                                   players := mkLeaderEntry leaderPl leaderId
                                     :: members },
                         leaderId := leaderId, volume := ⟨100⟩,
                         mute := .off } })) ∧
    (∀ rest : List Int, rest.Nodup → hashSetOf rest = rest) := by
  refine ⟨?_, ?_, ?_, ?_, ?_⟩
  · intro pid gid hgid
    unfold setGroup
    simp only [hgid, if_true]
  · intro pid hgid
    unfold setGroup
    simp only [hgid, if_true]
  · intro leaderId rest leaderPl members gid hne hfp hmk hgid
    unfold setGroup
    simp only [hgid, hfp, hmk, if_neg hne, mkLeaderEntry]
  · intro leaderId rest leaderPl members hne hfp hmk hgid
    unfold setGroup
    simp only [hgid, hfp, hmk, if_neg hne, MockGroup.new?, List.find?,
      mkLeaderEntry, beq_self_eq_true, Option.map_some']
  · intro rest hnd
    unfold hashSetOf
    exact dedupAux_self rest [] hnd (by intro x _; exact List.not_mem_nil x)

/-- Witness for C4 at the specification's scenario 4: creating the group
`[42, 43]` on a fresh system, then deleting it with `[42]`. -/
theorem c4_witness :
    setGroup c4Sys [42, 43] =
      (.successGroup 42 (joinNames c4Players),
       { c4Sys with
         groups := insertGroup c4Sys.groups
                     { info := { name := joinNames c4Players, groupId := 42,
                                 players := c4Players },
                       leaderId := 42, volume := ⟨100⟩, mute := .off } }) ∧
    setGroup c4SysGrouped [42] =
      (.successDeleted,
       { c4SysGrouped with groups := removeGroup c4SysGrouped.groups 42 }) :=
  ⟨(c4_set_group c4Sys).2.2.2.1 42 [43] c4P42 [c4Member]
      (by decide) (by decide) rfl (by decide),
   (c4_set_group c4SysGrouped).1 42 42 (by decide)⟩

end Heos

